import Mathlib

/-!
Verification development for the geo-explorer application.

The two subsystems under verification are

* the Extraction Protocol of `geminiService` (`parseResponse` together with
  `PLACE_TAG_REGEX`), which turns a model response containing sentinel tags
  of the shape `\x7b\x7bDATA:<name>|<lat>|<lng>|<address>\x7d\x7d` into a
  clean display string plus a list of validated `Place` values, and

* the viewport arbitration logic of the map component: the `MapUpdater`
  effect, the `FitBoundsControl` handler, the `isValidCoord` helper, and the
  `handleMapDrag` handler of `App`.

JavaScript numbers are embedded as `JsNumber`: either a finite rational or
one of the non-finite values `NaN` / `Infinity` / `-Infinity`.  Finite
arithmetic is carried out over `ℚ`; every decimal constant appearing in the
source (`0.0001`, `0.000001`, `40.71`, ...) is exactly representable, so no
floating-point rounding question enters any of the claims checked here.

The regex `\x7b\x7bDATA:([^|]*?)\|([^|]*?)\|([^|]*?)\|([^\x7d]*?)\x7d\x7d`
is embedded by a direct scanner: the lazy groups `[^|]*?` / `[^\x7d]*?`
followed by their literal delimiter match exactly the span up to the first
occurrence of that delimiter, so a match attempt at a fixed position is
deterministic, and the JavaScript `exec` loop (and `replace`) visit the
leftmost-first non-overlapping matches, which is what the scanner computes.
-/

/-- A JavaScript number: a finite rational, or `NaN`, or a signed infinity. -/
inductive JsNumber where
  | num (val : ℚ)
  | nan
  | inf
  | negInf
deriving DecidableEq, Repr

/-- JavaScript `isNaN`. -/
def JsNumber.isNaN : JsNumber → Bool
  | .nan => true
  | _ => false

/-- JavaScript `isFinite`. -/
def JsNumber.isFinite : JsNumber → Bool
  | .num _ => true
  | _ => false

/-- The rational value of a finite `JsNumber` (junk value `0` otherwise;
only ever read under an `isFinite` guard, mirroring the source which only
uses coordinates after validation). -/
def JsNumber.toRat : JsNumber → ℚ
  | .num q => q
  | _ => 0

/-- Whitespace recognized by `String.prototype.trim` (ASCII fragment). -/
def isJsWhitespace (c : Char) : Bool :=
  c = ' ' || c = '\t' || c = '\n' || c = '\r' || c = '\x0b' || c = '\x0c'

/-- JavaScript `s.trim()`: strip leading and trailing whitespace. -/
def jsTrim (s : String) : String :=
  String.mk (((s.toList.dropWhile isJsWhitespace).reverse.dropWhile
    isJsWhitespace).reverse)

/-- Replace the first occurrence of character `c` by `d`; JavaScript
`s.replace(c, d)` with a plain (non-global) string pattern. -/
def replaceFirstChar (c d : Char) : List Char → List Char
  | [] => []
  | x :: xs => if x = c then d :: xs else x :: replaceFirstChar c d xs

/-- JavaScript `s.replace(',', '.')` as used on the numeric fields. -/
def commaToDot (s : String) : String :=
  String.mk (replaceFirstChar ',' '.' s.toList)

/-- Take the maximal run of decimal digits at the head of the list,
returning the digits and the remainder. -/
def takeDigits : List Char → List Char × List Char
  | [] => ([], [])
  | c :: cs =>
    if c.isDigit then
      let (d, r) := takeDigits cs
      (c :: d, r)
    else ([], c :: cs)

/-- Numeric value of a digit run. -/
def digitsToNat (l : List Char) : ℕ :=
  l.foldl (fun n c => 10 * n + (c.toNat - 48)) 0

/-- Fractional part `.d₁…dₖ` as a rational in `[0,1)`. -/
def fracValue (l : List Char) : ℚ :=
  (digitsToNat l : ℚ) / ((10 : ℚ) ^ l.length)

/-- Exponent part of a JavaScript float literal: consumed only when at
least one digit follows the `e`/`E` (and optional sign), as in
`parseFloat`. Returns the exponent that applies (0 when not consumed). -/
def parseExponent (l : List Char) : ℤ :=
  match l with
  | 'e' :: rest | 'E' :: rest =>
    match rest with
    | '+' :: ds => let (d, _) := takeDigits ds; if d = [] then 0 else (digitsToNat d : ℤ)
    | '-' :: ds => let (d, _) := takeDigits ds; if d = [] then 0 else -(digitsToNat d : ℤ)
    | ds => let (d, _) := takeDigits ds; if d = [] then 0 else (digitsToNat d : ℤ)
  | _ => 0

/-- Significand and trailing input of a JavaScript float literal: integer
digits, then an optional `.` followed by fraction digits.  Fails (`none`)
when no digit is present at all, as `parseFloat` does. -/
def parseSignificand (l : List Char) : Option (ℚ × List Char) :=
  let (intDigits, r1) := takeDigits l
  match r1 with
  | '.' :: r2 =>
    let (fracDigits, r3) := takeDigits r2
    if intDigits = [] ∧ fracDigits = [] then none
    else some ((digitsToNat intDigits : ℚ) + fracValue fracDigits, r3)
  | _ =>
    if intDigits = [] then none
    else some ((digitsToNat intDigits : ℚ), r1)

/-- JavaScript `parseFloat`: skip leading whitespace, read an optional
sign, then either `Infinity` or a decimal significand with optional
exponent; the longest valid prefix is used and trailing junk is ignored;
`NaN` when no number can be read at all. -/
def parseFloat (s : String) : JsNumber :=
  let l := s.toList.dropWhile isJsWhitespace
  let (sign, body) : ℚ × List Char :=
    match l with
    | '-' :: rest => (-1, rest)
    | '+' :: rest => (1, rest)
    | rest => (1, rest)
  if body.take 8 = ['I', 'n', 'f', 'i', 'n', 'i', 't', 'y'] then
    if sign = 1 then JsNumber.inf else JsNumber.negInf
  else
    match parseSignificand body with
    | none => JsNumber.nan
    | some (mag, rest) => JsNumber.num (sign * mag * (10 : ℚ) ^ parseExponent rest)

/-- The transient parse artifact of one sentinel-tag match: the four
captured groups of `PLACE_TAG_REGEX`, in source order. -/
structure Tag where
  name : String
  latText : String
  lngText : String
  address : String
deriving DecidableEq, Repr

/-- The literal header `\x7b\x7bDATA:` of the sentinel pattern. -/
def headerChars : List Char :=
  ['{', '{', 'D', 'A', 'T', 'A', ':']

/-- Match a literal character sequence at the head of the input, returning
the remainder on success. -/
def matchLiteral : List Char → List Char → Option (List Char)
  | [], l => some l
  | _ :: _, [] => none
  | p :: ps, x :: xs => if x = p then matchLiteral ps xs else none

/-- Split the input at the first occurrence of `c`: the span before it
(which therefore does not contain `c`) and the remainder after it.  This is
exactly what the lazy group `[^c]*?` followed by the literal `c` captures. -/
def splitAtChar (c : Char) : List Char → Option (List Char × List Char)
  | [] => none
  | x :: xs =>
    if x = c then some ([], xs)
    else
      match splitAtChar c xs with
      | some (pre, post) => some (x :: pre, post)
      | none => none

/-- Attempt to match `PLACE_TAG_REGEX` at the current position: the
header, three pipe-terminated lazy groups, one close-brace-free lazy
group, and the two closing braces.  Returns the captured `Tag` and the
input after the match. -/
def tryTag (l : List Char) : Option (Tag × List Char) :=
  match matchLiteral headerChars l with
  | none => none
  | some r0 =>
    match splitAtChar '|' r0 with
    | none => none
    | some (nm, r1) =>
      match splitAtChar '|' r1 with
      | none => none
      | some (lt, r2) =>
        match splitAtChar '|' r2 with
        | none => none
        | some (lg, r3) =>
          match splitAtChar '}' r3 with
          | none => none
          | some (ad, r4) =>
            match r4 with
            | '}' :: rest =>
              some (⟨String.mk nm, String.mk lt, String.mk lg, String.mk ad⟩, rest)
            | _ => none

theorem matchLiteral_length {ps l r : List Char} (h : matchLiteral ps l = some r) :
    r.length ≤ l.length := by
  induction ps generalizing l with
  | nil => simp only [matchLiteral, Option.some.injEq] at h; simp [h]
  | cons p ps ih =>
    cases l with
    | nil => simp [matchLiteral] at h
    | cons x xs =>
      simp only [matchLiteral] at h
      split at h
      · exact le_trans (ih h) (by simp)
      · exact absurd h (by simp)

theorem splitAtChar_length {c : Char} {l pre post : List Char}
    (h : splitAtChar c l = some (pre, post)) : post.length < l.length := by
  induction l generalizing pre post with
  | nil => simp [splitAtChar] at h
  | cons x xs ih =>
    simp only [splitAtChar] at h
    split at h
    · simp only [Option.some.injEq, Prod.mk.injEq] at h
      simp [← h.2]
    · cases hx : splitAtChar c xs with
      | none => rw [hx] at h; exact absurd h (by simp)
      | some pr =>
        rw [hx] at h
        simp only [Option.some.injEq, Prod.mk.injEq] at h
        have := ih (show splitAtChar c xs = some (pr.1, pr.2) by rw [hx])
        rw [← h.2]
        exact Nat.lt_succ_of_lt this

theorem tryTag_length {l : List Char} {t : Tag} {rest : List Char}
    (h : tryTag l = some (t, rest)) : rest.length < l.length := by
  unfold tryTag at h
  split at h
  · exact absurd h (by simp)
  · rename_i r0 h0
    have hr0 : r0.length ≤ l.length := matchLiteral_length h0
    split at h
    · exact absurd h (by simp)
    · rename_i nm r1 h1
      have hr1 : r1.length < r0.length := splitAtChar_length h1
      split at h
      · exact absurd h (by simp)
      · rename_i lt r2 h2
        have hr2 : r2.length < r1.length := splitAtChar_length h2
        split at h
        · exact absurd h (by simp)
        · rename_i lg r3 h3
          have hr3 : r3.length < r2.length := splitAtChar_length h3
          split at h
          · exact absurd h (by simp)
          · rename_i ad r4 h4
            have hr4 : r4.length < r3.length := splitAtChar_length h4
            split at h
            · rename_i tl
              simp only [Option.some.injEq, Prod.mk.injEq] at h
              simp only [List.length_cons] at hr4
              rw [← h.2]
              omega
            · exact absurd h (by simp)

/-- Fueled left-to-right scan of the input for non-overlapping matches of
`PLACE_TAG_REGEX`, advancing one character when no match starts at the
current position, exactly as the JavaScript regex engine does.  The first
component collects the matched tags in order of appearance; the second
collects the characters outside every matched span (the `replace` result). -/
def scanAux : ℕ → List Char → List Tag × List Char
  | 0, rest => ([], rest)
  | _ + 1, [] => ([], [])
  | f + 1, c :: cs =>
    match tryTag (c :: cs) with
    | some (t, rest) =>
      let (ts, cl) := scanAux f rest
      (t :: ts, cl)
    | none =>
      let (ts, cl) := scanAux f cs
      (ts, c :: cl)

/-- Scan a character list with sufficient fuel (a match always consumes at
least one character, so `l.length` steps suffice). -/
def scanChars (l : List Char) : List Tag × List Char :=
  scanAux l.length l

theorem scanAux_cons_some {f : ℕ} {c : Char} {cs : List Char} {t : Tag}
    {rest : List Char} (h : tryTag (c :: cs) = some (t, rest)) :
    scanAux (f + 1) (c :: cs) = (t :: (scanAux f rest).1, (scanAux f rest).2) := by
  simp only [scanAux, h]

theorem scanAux_cons_none {f : ℕ} {c : Char} {cs : List Char}
    (h : tryTag (c :: cs) = none) :
    scanAux (f + 1) (c :: cs) = ((scanAux f cs).1, c :: (scanAux f cs).2) := by
  simp only [scanAux, h]

theorem scanAux_fuel {f g : ℕ} {l : List Char} (hf : l.length ≤ f)
    (hg : l.length ≤ g) : scanAux f l = scanAux g l := by
  induction f generalizing g l with
  | zero =>
    have : l = [] := List.length_eq_zero.mp (Nat.le_zero.mp hf)
    subst this
    cases g <;> simp [scanAux]
  | succ f ih =>
    cases l with
    | nil => cases g <;> simp [scanAux]
    | cons c cs =>
      have hg0 : 0 < g := lt_of_lt_of_le (by simp) hg
      obtain ⟨g', rfl⟩ : ∃ g', g = g' + 1 := ⟨g - 1, by omega⟩
      simp only [List.length_cons] at hf hg
      cases htry : tryTag (c :: cs) with
      | some p =>
        obtain ⟨t, rest⟩ := p
        have hlen : rest.length < cs.length + 1 := tryTag_length htry
        rw [scanAux_cons_some htry, scanAux_cons_some htry,
          ih (l := rest) (g := g') (by omega) (by omega)]
      | none =>
        rw [scanAux_cons_none htry, scanAux_cons_none htry,
          ih (l := cs) (g := g') (by omega) (by omega)]

theorem scanChars_nil : scanChars [] = ([], []) := rfl

theorem scanChars_cons_none {c : Char} {cs : List Char}
    (h : tryTag (c :: cs) = none) :
    scanChars (c :: cs) = ((scanChars cs).1, c :: (scanChars cs).2) := by
  show scanAux (cs.length + 1) (c :: cs) = _
  rw [scanAux_cons_none h]
  rfl

theorem scanChars_cons_tag {c : Char} {cs : List Char} {t : Tag}
    {rest : List Char} (h : tryTag (c :: cs) = some (t, rest)) :
    scanChars (c :: cs) = (t :: (scanChars rest).1, (scanChars rest).2) := by
  show scanAux (cs.length + 1) (c :: cs) = _
  rw [scanAux_cons_some h]
  have hlen : rest.length < cs.length + 1 := tryTag_length h
  rw [scanAux_fuel (f := cs.length) (g := rest.length) (by omega) (le_refl _)]
  rfl

/-- A located place produced by the Extraction Protocol.  The source also
attaches a freshly generated random identifier
(`Math.random().toString(36).substr(2, 9)`); the identifier is opaque and
nondeterministic, never compared or interpreted, so it is not modelled. -/
structure Place where
  name : String
  lat : JsNumber
  lng : JsNumber
  address : String
  description : String
deriving DecidableEq, Repr

/-- The per-match validator of `parseResponse`
(`const isValidCoordinate = (num) => typeof num === 'number' && !isNaN(num) && isFinite(num)`);
the `typeof` conjunct is identically true for numbers. -/
def isValidCoordinate (n : JsNumber) : Bool :=
  !n.isNaN && n.isFinite

/-- The latitude of a match:
`const lat = parseFloat(latStr.trim().replace(',', '.'))`. -/
def tagLat (t : Tag) : JsNumber :=
  parseFloat (commaToDot (jsTrim t.latText))

/-- The longitude of a match:
`const lng = parseFloat(lngStr.trim().replace(',', '.'))`. -/
def tagLng (t : Tag) : JsNumber :=
  parseFloat (commaToDot (jsTrim t.lngText))

/-- The acceptance test of `parseResponse` (source line 53): both
coordinates validate, and they are not both within `0.0001` of the
origin. -/
def acceptTag (t : Tag) : Bool :=
  isValidCoordinate (tagLat t) && isValidCoordinate (tagLng t) &&
    (decide (|(tagLat t).toRat| > 1 / 10000) ||
      decide (|(tagLng t).toRat| > 1 / 10000))

/-- The per-match body of the `while` loop of `parseResponse`: trim the
numeric fields, normalize the first decimal comma to a dot, parse as
floating point, and accept only when `acceptTag` holds, building the
`Place` from the trimmed fields. -/
def mkPlaceOfTag (t : Tag) : Option Place :=
  if acceptTag t then
    some { name := jsTrim t.name
           lat := tagLat t
           lng := tagLng t
           address := jsTrim t.address
           description := "Located at " ++ jsTrim t.address }
  else none

/-- Result record of `parseResponse`. -/
structure ParseResult where
  cleanText : String
  places : List Place
deriving DecidableEq, Repr

/-- The Extraction Protocol.  `parseResponse` iterates
`PLACE_TAG_REGEX.exec` over the text, pushing a `Place` for each accepted
match in order of appearance, and independently strips every matched span
from the display text (`text.replace(PLACE_TAG_REGEX, '')`). -/
def parseResponse (text : String) : ParseResult :=
  let scanned := scanChars text.toList
  { cleanText := String.mk scanned.2
    places := scanned.1.filterMap mkPlaceOfTag }

/-- The character rendering of a sentinel tag
`\x7b\x7bDATA:<name>|<lat>|<lng>|<address>\x7d\x7d`, right-nested the way
the scanner consumes it. -/
def tagChars (t : Tag) : List Char :=
  headerChars ++ (t.name.toList ++ '|' :: (t.latText.toList ++ '|' ::
    (t.lngText.toList ++ '|' :: (t.address.toList ++ '}' :: '}' :: []))))

/-- String form of `tagChars`. -/
def renderTag (t : Tag) : String :=
  String.mk (tagChars t)

/-- A tag whose fields respect the character classes of the four capture
groups: no pipe in the first three, no closing brace in the address.  Only
such field contents can have been produced by a `PLACE_TAG_REGEX` match,
and only such contents render back into a span the regex matches. -/
def wellFormedTag (t : Tag) : Prop :=
  '|' ∉ t.name.toList ∧ '|' ∉ t.latText.toList ∧ '|' ∉ t.lngText.toList ∧
    '}' ∉ t.address.toList

instance (t : Tag) : Decidable (wellFormedTag t) := by
  unfold wellFormedTag
  infer_instance

/-- A pair of finite (rational) coordinates, as held by the map itself
(`map.getCenter()`) and by the `lastApplied` refs, which are only ever
written with validated values. -/
structure RatCoord where
  lat : ℚ
  lng : ℚ
deriving DecidableEq, Repr

/-- A coordinate pair as it arrives in props: plain JavaScript numbers,
possibly `NaN` or infinite. -/
structure JsCoord where
  lat : JsNumber
  lng : JsNumber
deriving DecidableEq, Repr

/-- Finite view of a validated coordinate pair. -/
def JsCoord.toRatCoord (c : JsCoord) : RatCoord :=
  ⟨c.lat.toRat, c.lng.toRat⟩

/-- The map component's coordinate validator (`isValidCoord`): both
numbers, neither `NaN`, both finite.  The `typeof` conjuncts are
identically true for numbers. -/
def isValidCoord (lat lng : JsNumber) : Bool :=
  !lat.isNaN && !lng.isNaN && lat.isFinite && lng.isFinite

/-- Route geometry as held in `RouteData`. -/
structure RouteData where
  coordinates : List RatCoord
  distance : ℚ
  duration : ℚ
deriving DecidableEq, Repr

/-- The map camera the arbiter owns: current center (`map.getCenter()`)
and zoom (`map.getZoom()`). -/
structure MapState where
  center : RatCoord
  zoom : ℚ
deriving DecidableEq, Repr

/-- The props consumed by one run of the `MapUpdater` effect. -/
structure UpdaterProps where
  center : JsCoord
  zoom : Option ℚ
  userLocation : Option JsCoord
  isNavigating : Bool
  routeData : Option RouteData
  isFollowingUser : Bool
deriving DecidableEq, Repr

/-- The `useRef` cells of `MapUpdater`: center and zoom of the last
explicitly applied view, `null` before the first application. -/
structure UpdaterRefs where
  lastAppliedCenter : Option RatCoord
  lastAppliedZoom : Option ℚ
deriving DecidableEq, Repr

/-- The single camera instruction an effect run can issue. -/
inductive CameraInstr where
  /-- `map.fitBounds(L.latLngBounds(routeData.coordinates), padding 50)`. -/
  | fitRoute (coords : List RatCoord)
  /-- `map.setView(userLocation, map.getZoom(), duration 1.0)` — the
  follow-user glide. -/
  | followView (center : RatCoord) (zoom : ℚ)
  /-- `map.setView(center, targetZoom, duration 1.5)` — the explicit
  center update. -/
  | centerView (center : RatCoord) (zoom : ℚ)
  /-- `map.fitBounds(latLngs, padding 50, maxZoom 15)` issued by
  `FitBoundsControl`. -/
  | fitAll (points : List RatCoord)
deriving DecidableEq, Repr

/-- Squared planar displacement in degree space.  The source compares
`Math.sqrt(distSq)` with `0.0001`; since both sides are nonnegative this
is equivalent to comparing `distSq` with `0.0001² = 1/10^8`, which keeps
the embedding inside `ℚ`. -/
def distSq (a b : RatCoord) : ℚ :=
  (a.lat - b.lat) ^ 2 + (a.lng - b.lng) ^ 2

/-- `const targetZoom = zoom || map.getZoom()`: the prop zoom unless it is
absent or `0` (falsy). -/
def targetZoomOf (p : UpdaterProps) (m : MapState) : ℚ :=
  match p.zoom with
  | some z => if z = 0 then m.zoom else z
  | none => m.zoom

/-- The explicit-center tail of the `MapUpdater` effect (source lines
62–87): guard on `isValidCoord`, compare against the `lastApplied` refs
with the `1e-6` epsilon, and issue `setView` only on a change, recording
the applied center and zoom. -/
def mapUpdaterCenter (p : UpdaterProps) (m : MapState) (r : UpdaterRefs) :
    Option CameraInstr × UpdaterRefs :=
  if !isValidCoord p.center.lat p.center.lng then (none, r)
  else
    let c := p.center.toRatCoord
    let tz := targetZoomOf p m
    let centerChanged : Bool :=
      match r.lastAppliedCenter with
      | none => true
      | some lc =>
        decide (|lc.lat - c.lat| > 1 / 1000000) ||
          decide (|lc.lng - c.lng| > 1 / 1000000)
    let zoomChanged : Bool := decide (r.lastAppliedZoom ≠ some tz)
    if centerChanged || zoomChanged then
      (some (.centerView c tz), ⟨some c, some tz⟩)
    else (none, r)

/-- The follow-user branch and fallthrough of the `MapUpdater` effect
(source lines 39–60): when navigating or explicitly following and the
user location validates, glide to it only when the displacement from the
current map center exceeds `0.0001` degrees; the refs are untouched
either way. -/
def mapUpdaterRest (p : UpdaterProps) (m : MapState) (r : UpdaterRefs) :
    Option CameraInstr × UpdaterRefs :=
  match p.userLocation with
  | some u =>
    if (p.isNavigating || p.isFollowingUser) && isValidCoord u.lat u.lng then
      if distSq m.center u.toRatCoord > 1 / 100000000 then
        (some (.followView u.toRatCoord m.zoom), r)
      else (none, r)
    else mapUpdaterCenter p m r
  | none => mapUpdaterCenter p m r

/-- One run of the `MapUpdater` effect (source lines 25–88).  The route
branch fires first: a non-empty route is fitted whenever `isFollowingUser`
is false (the guard on line 31 tests only that flag); `L.latLngBounds` of
a non-empty list of real coordinates is always valid, so the inner
`bounds.isValid()` test is identically true here. -/
def mapUpdater (p : UpdaterProps) (m : MapState) (r : UpdaterRefs) :
    Option CameraInstr × UpdaterRefs :=
  match p.routeData with
  | some rd =>
    if rd.coordinates.length > 0 && !p.isFollowingUser then
      (some (.fitRoute rd.coordinates), r)
    else mapUpdaterRest p m r
  | none => mapUpdaterRest p m r

/-- Axis-wise minimum used for the bounding-box center. -/
def boundsCorner (f : ℚ → ℚ → ℚ) (l : List RatCoord) (d : RatCoord) : RatCoord :=
  match l with
  | [] => d
  | x :: xs => xs.foldl (fun a b => ⟨f a.lat b.lat, f a.lng b.lng⟩) x

/-- Camera state after applying an instruction.  A `setView` moves the
center and zoom as instructed; a bounds fit centers on the middle of the
bounding box (the zoom leaflet chooses depends on the viewport size, which
is outside the model, so it is left unchanged). -/
def applyInstr (m : MapState) : Option CameraInstr → MapState
  | none => m
  | some (.followView c z) => ⟨c, z⟩
  | some (.centerView c z) => ⟨c, z⟩
  | some (.fitRoute coords) =>
    let lo := boundsCorner min coords m.center
    let hi := boundsCorner max coords m.center
    ⟨⟨(lo.lat + hi.lat) / 2, (lo.lng + hi.lng) / 2⟩, m.zoom⟩
  | some (.fitAll pts) =>
    let lo := boundsCorner min pts m.center
    let hi := boundsCorner max pts m.center
    ⟨⟨(lo.lat + hi.lat) / 2, (lo.lng + hi.lng) / 2⟩, m.zoom⟩

/-- One effect run together with the camera motion it causes. -/
def stepUpdater (p : UpdaterProps) (m : MapState) (r : UpdaterRefs) :
    Option CameraInstr × MapState × UpdaterRefs :=
  let (i, r') := mapUpdater p m r
  (i, applyInstr m i, r')

/-- The `fitBounds` handler of `FitBoundsControl` (source lines 127–148):
filter the places through the validator, give up silently when none
remain, otherwise fit their bounding box.  (`Place.coordinates` is a
required field of the `Place` type, so the defensive `p.coordinates &&`
truthiness test of the source is identically true.)  A non-empty list of
validated coordinates always yields a valid `L.latLngBounds`. -/
def fitBoundsControl (places : List Place) : Option CameraInstr :=
  let validPlaces := places.filter (fun pl => isValidCoord pl.lat pl.lng)
  if validPlaces.length = 0 then none
  else some (.fitAll (validPlaces.map fun pl => RatCoord.mk pl.lat.toRat pl.lng.toRat))

/-- The two `App` state flags from which the persistent viewport mode is
derived (`isNavigating`, set by `handleStartTrip`, and `isFollowingUser`). -/
structure FollowFlags where
  isNavigating : Bool
  isFollowingUser : Bool
deriving DecidableEq, Repr

/-- `handleMapDrag` (App.tsx lines 205–210): a user drag clears the
follow flag and touches nothing else. -/
def handleMapDrag (f : FollowFlags) : FollowFlags :=
  if f.isFollowingUser then { f with isFollowingUser := false } else f

/-- The spec's persistent viewport mode. -/
inductive Mode where
  | idle
  | following
  | navigating
deriving DecidableEq, Repr

/-- Mode derivation from the `App` flags, following the spec:
`Navigating` is the `Following` variant entered when a trip starts
(`isNavigating`), `Following` is the explicit follow flag, and `Idle` is
the absence of both. -/
def modeOf (f : FollowFlags) : Mode :=
  if f.isNavigating then .navigating
  else if f.isFollowingUser then .following
  else .idle

/-- Props of one `MapUpdater` run assembled from the `App` flags and the
remaining inputs, as `App` passes them down. -/
def mkProps (f : FollowFlags) (center : JsCoord) (zoom : Option ℚ)
    (userLocation : Option JsCoord) (routeData : Option RouteData) :
    UpdaterProps :=
  { center := center
    zoom := zoom
    userLocation := userLocation
    isNavigating := f.isNavigating
    routeData := routeData
    isFollowingUser := f.isFollowingUser }

theorem matchLiteral_append (ps l : List Char) :
    matchLiteral ps (ps ++ l) = some l := by
  induction ps with
  | nil => rfl
  | cons p ps ih => simp [matchLiteral, ih]

theorem tryTag_cons_none {c : Char} {cs : List Char} (h : c ≠ '{') :
    tryTag (c :: cs) = none := by
  unfold tryTag
  have : matchLiteral headerChars (c :: cs) = none := by
    show (if c = '{' then _ else none) = none
    simp [h]
  rw [this]

theorem splitAtChar_exact {c : Char} {pre : List Char} (post : List Char)
    (h : c ∉ pre) : splitAtChar c (pre ++ c :: post) = some (pre, post) := by
  induction pre with
  | nil => simp [splitAtChar]
  | cons x xs ih =>
    simp only [List.mem_cons, not_or] at h
    have hxc : ¬ x = c := fun hxc => h.1 hxc.symm
    simp only [List.cons_append, splitAtChar, if_neg hxc, List.append_eq, ih h.2]

theorem tryTag_tagChars {t : Tag} (ht : wellFormedTag t) (rest : List Char) :
    tryTag (tagChars t ++ rest) = some (t, rest) := by
  obtain ⟨h1, h2, h3, h4⟩ := ht
  have e1 : tagChars t ++ rest = headerChars ++ (t.name.toList ++ '|' ::
      (t.latText.toList ++ '|' :: (t.lngText.toList ++ '|' ::
        (t.address.toList ++ '}' :: '}' :: rest)))) := by
    simp [tagChars, List.append_assoc]
  rw [e1]
  unfold tryTag
  simp only [matchLiteral_append, splitAtChar_exact _ h1, splitAtChar_exact _ h2,
    splitAtChar_exact _ h3, splitAtChar_exact ('}' :: rest) h4]
  rfl

theorem tryTag_nil : tryTag [] = none := rfl

theorem scanChars_tag {l : List Char} {t : Tag} {rest : List Char}
    (h : tryTag l = some (t, rest)) :
    scanChars l = (t :: (scanChars rest).1, (scanChars rest).2) := by
  cases l with
  | nil => rw [tryTag_nil] at h; exact absurd h (by simp)
  | cons c cs => exact scanChars_cons_tag h

theorem scanChars_filler {f : List Char} (hf : '{' ∉ f) (l : List Char) :
    scanChars (f ++ l) = ((scanChars l).1, f ++ (scanChars l).2) := by
  induction f with
  | nil => simp
  | cons c cs ih =>
    simp only [List.mem_cons, not_or] at hf
    have hc : c ≠ '{' := fun h => hf.1 h.symm
    rw [List.cons_append, scanChars_cons_none (tryTag_cons_none hc), ih hf.2]
    simp

theorem scanChars_no_brace {l : List Char} (h : '{' ∉ l) :
    scanChars l = ([], l) := by
  have := scanChars_filler h []
  simpa [scanChars_nil] using this

/-- A piece of model-response text: either free text between tags or one
sentinel tag. -/
inductive Chunk where
  | filler (s : String)
  | tag (t : Tag)
deriving DecidableEq, Repr

/-- Characters contributed by one chunk. -/
def renderChunkChars : Chunk → List Char
  | .filler s => s.toList
  | .tag t => tagChars t

/-- The full text assembled from a chunk sequence. -/
def renderChunksChars (l : List Chunk) : List Char :=
  l.foldr (fun c acc => renderChunkChars c ++ acc) []

/-- A benign chunk: filler text free of `\x7b` (so it can neither start
nor continue a sentinel match), or a tag whose fields respect the capture
classes. -/
def chunkOk : Chunk → Prop
  | .filler s => '{' ∉ s.toList
  | .tag t => wellFormedTag t

/-- The tags of a chunk sequence, in order. -/
def chunkTags (l : List Chunk) : List Tag :=
  l.filterMap fun c =>
    match c with
    | .tag t => some t
    | .filler _ => none

/-- The filler characters of a chunk sequence, in order. -/
def chunkFiller (l : List Chunk) : List Char :=
  l.foldr (fun c acc =>
    match c with
    | .filler s => s.toList ++ acc
    | .tag _ => acc) []

/-- The scanner on a benign chunk sequence finds exactly the tags of the
sequence, in order, and the stripped text is exactly the filler. -/
theorem scanChars_chunks {l : List Chunk} (h : ∀ c ∈ l, chunkOk c) :
    scanChars (renderChunksChars l) = (chunkTags l, chunkFiller l) := by
  induction l with
  | nil => exact scanChars_nil
  | cons c cs ih =>
    have hc : chunkOk c := h c (by simp)
    have hcs : ∀ x ∈ cs, chunkOk x := fun x hx => h x (by simp [hx])
    cases c with
    | filler s =>
      show scanChars (s.toList ++ renderChunksChars cs) = _
      rw [scanChars_filler hc, ih hcs]
      simp [chunkTags, chunkFiller, List.filterMap_cons]
    | tag t =>
      show scanChars (tagChars t ++ renderChunksChars cs) = _
      rw [scanChars_tag (tryTag_tagChars hc _), ih hcs]
      simp [chunkTags, chunkFiller, List.filterMap_cons]

/-- `parseResponse` on a benign chunk sequence: the display text is the
filler and the places are the accepted tags, in order. -/
theorem parseResponse_chunks {l : List Chunk} (h : ∀ c ∈ l, chunkOk c) :
    parseResponse (String.mk (renderChunksChars l)) =
      { cleanText := String.mk (chunkFiller l)
        places := (chunkTags l).filterMap mkPlaceOfTag } := by
  unfold parseResponse
  rw [show (String.mk (renderChunksChars l)).toList = renderChunksChars l from rfl,
    scanChars_chunks h]

/-- `parseResponse` on a single rendered tag. -/
theorem parseResponse_tag {t : Tag} (ht : wellFormedTag t) :
    parseResponse (renderTag t) =
      { cleanText := "", places := (mkPlaceOfTag t).toList } := by
  have h := parseResponse_chunks (l := [.tag t]) (by simpa [chunkOk] using ht)
  have e : renderChunksChars [.tag t] = tagChars t := by
    simp [renderChunksChars, renderChunkChars]
  rw [e] at h
  rw [show renderTag t = String.mk (tagChars t) from rfl, h]
  cases hm : mkPlaceOfTag t <;>
    simp [chunkTags, chunkFiller, List.filterMap_cons, hm]

theorem tryTag_no_brace {l : List Char} (h : '{' ∉ l) : tryTag l = none := by
  cases l with
  | nil => rfl
  | cons c cs =>
    simp only [List.mem_cons, not_or] at h
    exact tryTag_cons_none fun hc => h.1 hc.symm

theorem chunkFiller_no_brace {l : List Chunk} (h : ∀ c ∈ l, chunkOk c) :
    '{' ∉ chunkFiller l := by
  induction l with
  | nil => simp [chunkFiller]
  | cons c cs ih =>
    have hc : chunkOk c := h c (by simp)
    have hcs : ∀ x ∈ cs, chunkOk x := fun x hx => h x (by simp [hx])
    cases c with
    | filler s =>
      show '{' ∉ s.toList ++ chunkFiller cs
      simp only [List.mem_append, not_or]
      exact ⟨hc, ih hcs⟩
    | tag t => exact ih hcs

/-- The accept/reject test of `parseResponse`, spelled out as the spec
describes the rejection rule. -/
theorem mkPlaceOfTag_eq_none_iff (t : Tag) :
    mkPlaceOfTag t = none ↔
      (isValidCoordinate (tagLat t) = false ∨
       isValidCoordinate (tagLng t) = false ∨
       (|(tagLat t).toRat| ≤ 1 / 10000 ∧ |(tagLng t).toRat| ≤ 1 / 10000)) := by
  unfold mkPlaceOfTag
  by_cases h : acceptTag t = true
  · rw [if_pos h]
    unfold acceptTag at h
    simp only [Bool.and_eq_true, Bool.or_eq_true, decide_eq_true_eq] at h
    constructor
    · intro hc; exact absurd hc (by simp)
    · rintro (hc | hc | hc)
      · rw [h.1.1] at hc; exact absurd hc (by simp)
      · rw [h.1.2] at hc; exact absurd hc (by simp)
      · rcases h.2 with hgt | hgt
        · exact absurd hgt (not_lt.mpr hc.1)
        · exact absurd hgt (not_lt.mpr hc.2)
  · rw [if_neg h]
    unfold acceptTag at h
    simp only [Bool.and_eq_true, Bool.or_eq_true, decide_eq_true_eq,
      not_and_or, not_or, not_lt] at h
    constructor
    · intro _
      rcases h with (h | h) | h
      · exact Or.inl (by simpa using h)
      · exact Or.inr (Or.inl (by simpa using h))
      · exact Or.inr (Or.inr ⟨h.1, h.2⟩)
    · intro _; rfl

instance : (c : Chunk) → Decidable (chunkOk c)
  | .filler s => inferInstanceAs (Decidable ('{' ∉ s.toList))
  | .tag t => inferInstanceAs (Decidable (wellFormedTag t))

/-- C4: every span matched by the sentinel pattern is removed from the
returned display text, whether the tag was accepted or rejected — for an
input assembled from well-formed tags and brace-free filler, the display
text is exactly the filler, and no position of the display text matches
the sentinel pattern. -/
theorem tag_spans_always_stripped (l : List Chunk) (h : ∀ c ∈ l, chunkOk c) :
    (parseResponse (String.mk (renderChunksChars l))).cleanText =
      String.mk (chunkFiller l) ∧
    ∀ i, tryTag (((parseResponse (String.mk
      (renderChunksChars l))).cleanText.toList).drop i) = none := by
  have hp := parseResponse_chunks h
  refine ⟨by rw [hp], fun i => ?_⟩
  rw [hp]
  apply tryTag_no_brace
  intro hmem
  exact chunkFiller_no_brace h (List.drop_subset i _ hmem)

/-- Witness for C4: a concrete input holding one rejected and one accepted
tag; both spans vanish and the remaining text has no tag at any offset. -/
theorem tag_spans_always_stripped_witness :
    (parseResponse (String.mk (renderChunksChars
      [.filler "Visit ", .tag ⟨"Ghost", "0", "0", "Nowhere"⟩,
       .filler " and ", .tag ⟨"Eiffel", "48.8584", "2.2945", "Paris"⟩]))).cleanText =
      "Visit  and " ∧
    tryTag (((parseResponse (String.mk (renderChunksChars
      [.filler "Visit ", .tag ⟨"Ghost", "0", "0", "Nowhere"⟩,
       .filler " and ", .tag ⟨"Eiffel", "48.8584", "2.2945", "Paris"⟩]))).cleanText.toList).drop 2) =
      none := by
  have h := tag_spans_always_stripped
    [.filler "Visit ", .tag ⟨"Ghost", "0", "0", "Nowhere"⟩,
     .filler " and ", .tag ⟨"Eiffel", "48.8584", "2.2945", "Paris"⟩] (by decide)
  exact ⟨h.1.trans (by decide), h.2 2⟩


theorem tagLat_Ghost : tagLat ⟨"Ghost", "0", "0", "Nowhere"⟩ = .num 0 := by
  simp +decide [tagLat, parseFloat, commaToDot, jsTrim, replaceFirstChar,
    isJsWhitespace, parseSignificand, takeDigits, digitsToNat, fracValue,
    parseExponent]

theorem tagLng_Ghost : tagLng ⟨"Ghost", "0", "0", "Nowhere"⟩ = .num 0 := by
  simp +decide [tagLng, parseFloat, commaToDot, jsTrim, replaceFirstChar,
    isJsWhitespace, parseSignificand, takeDigits, digitsToNat, fracValue,
    parseExponent]

theorem tagLat_Real : tagLat ⟨"Real", "0.0002", "0.0002", "Somewhere"⟩ = .num (1 / 5000) := by
  simp +decide [tagLat, parseFloat, commaToDot, jsTrim, replaceFirstChar,
    isJsWhitespace, parseSignificand, takeDigits, digitsToNat, fracValue,
    parseExponent]
  norm_num

theorem tagLng_Real : tagLng ⟨"Real", "0.0002", "0.0002", "Somewhere"⟩ = .num (1 / 5000) := by
  simp +decide [tagLng, parseFloat, commaToDot, jsTrim, replaceFirstChar,
    isJsWhitespace, parseSignificand, takeDigits, digitsToNat, fracValue,
    parseExponent]
  norm_num

theorem mkPlaceOfTag_B :
    mkPlaceOfTag ⟨"B", "2", "2", "y"⟩ =
      some ⟨"B", .num 2, .num 2, "y", "Located at y"⟩ := by
  have hlat : tagLat ⟨"B", "2", "2", "y"⟩ = .num 2 := by
    simp +decide [tagLat, parseFloat, commaToDot, jsTrim, replaceFirstChar,
      isJsWhitespace, parseSignificand, takeDigits, digitsToNat, fracValue,
      parseExponent]
  have hlng : tagLng ⟨"B", "2", "2", "y"⟩ = .num 2 := by
    simp +decide [tagLng, parseFloat, commaToDot, jsTrim, replaceFirstChar,
      isJsWhitespace, parseSignificand, takeDigits, digitsToNat, fracValue,
      parseExponent]
  have hacc : acceptTag ⟨"B", "2", "2", "y"⟩ = true := by
    simp [acceptTag, hlat, hlng, isValidCoordinate, JsNumber.isNaN,
      JsNumber.isFinite, JsNumber.toRat]
    norm_num
  simp +decide [mkPlaceOfTag, hacc, hlat, hlng, jsTrim, isJsWhitespace]

theorem mkPlaceOfTag_C :
    mkPlaceOfTag ⟨"C", "40,71", "-74,00", "NY"⟩ =
      some ⟨"C", .num (4071 / 100), .num (-74), "NY", "Located at NY"⟩ := by
  have hlat : tagLat ⟨"C", "40,71", "-74,00", "NY"⟩ = .num (4071 / 100) := by
    simp +decide [tagLat, parseFloat, commaToDot, jsTrim, replaceFirstChar,
      isJsWhitespace, parseSignificand, takeDigits, digitsToNat, fracValue,
      parseExponent]
    norm_num
  have hlng : tagLng ⟨"C", "40,71", "-74,00", "NY"⟩ = .num (-74) := by
    simp +decide [tagLng, parseFloat, commaToDot, jsTrim, replaceFirstChar,
      isJsWhitespace, parseSignificand, takeDigits, digitsToNat, fracValue,
      parseExponent]
  have hacc : acceptTag ⟨"C", "40,71", "-74,00", "NY"⟩ = true := by
    simp [acceptTag, hlat, hlng, isValidCoordinate, JsNumber.isNaN,
      JsNumber.isFinite, JsNumber.toRat]
    norm_num
  simp +decide [mkPlaceOfTag, hacc, hlat, hlng, jsTrim, isJsWhitespace]

theorem tagLat_Zero : tagLat ⟨"Zero", "0", "0", "Null"⟩ = .num 0 := by
  simp +decide [tagLat, parseFloat, commaToDot, jsTrim, replaceFirstChar,
    isJsWhitespace, parseSignificand, takeDigits, digitsToNat, fracValue,
    parseExponent]

theorem tagLng_Zero : tagLng ⟨"Zero", "0", "0", "Null"⟩ = .num 0 := by
  simp +decide [tagLng, parseFloat, commaToDot, jsTrim, replaceFirstChar,
    isJsWhitespace, parseSignificand, takeDigits, digitsToNat, fracValue,
    parseExponent]

theorem tagLat_Far : tagLat ⟨"Far", "1000", "999", "Out"⟩ = .num 1000 := by
  simp +decide [tagLat, parseFloat, commaToDot, jsTrim, replaceFirstChar,
    isJsWhitespace, parseSignificand, takeDigits, digitsToNat, fracValue,
    parseExponent]

theorem tagLng_Far : tagLng ⟨"Far", "1000", "999", "Out"⟩ = .num 999 := by
  simp +decide [tagLng, parseFloat, commaToDot, jsTrim, replaceFirstChar,
    isJsWhitespace, parseSignificand, takeDigits, digitsToNat, fracValue,
    parseExponent]

theorem tagLat_A : tagLat ⟨"A", "1", "1", "x"⟩ = .num 1 := by
  simp +decide [tagLat, parseFloat, commaToDot, jsTrim, replaceFirstChar,
    isJsWhitespace, parseSignificand, takeDigits, digitsToNat, fracValue,
    parseExponent]

theorem mkPlaceOfTag_A :
    mkPlaceOfTag ⟨"A", "1", "1", "x"⟩ =
      some ⟨"A", .num 1, .num 1, "x", "Located at x"⟩ := by
  have hlng : tagLng ⟨"A", "1", "1", "x"⟩ = .num 1 := by
    simp +decide [tagLng, parseFloat, commaToDot, jsTrim, replaceFirstChar,
      isJsWhitespace, parseSignificand, takeDigits, digitsToNat, fracValue,
      parseExponent]
  have hacc : acceptTag ⟨"A", "1", "1", "x"⟩ = true := by
    simp [acceptTag, tagLat_A, hlng, isValidCoordinate, JsNumber.isNaN,
      JsNumber.isFinite, JsNumber.toRat]
    norm_num
  simp +decide [mkPlaceOfTag, hacc, tagLat_A, hlng, jsTrim, isJsWhitespace]

/-- C5: a matched tag produces no `Place` exactly when a numeric field
fails to parse or is non-finite, or both parsed coordinates lie within
`0.0001` degrees of the origin `(0, 0)`; a single tag never produces more
than one place. -/
theorem origin_placeholder_rejected (t : Tag) (ht : wellFormedTag t) :
    ((parseResponse (renderTag t)).places = [] ↔
      (isValidCoordinate (tagLat t) = false ∨
       isValidCoordinate (tagLng t) = false ∨
       (|(tagLat t).toRat| ≤ 1 / 10000 ∧ |(tagLng t).toRat| ≤ 1 / 10000))) ∧
    (parseResponse (renderTag t)).places.length ≤ 1 := by
  rw [parseResponse_tag ht, ← mkPlaceOfTag_eq_none_iff]
  cases mkPlaceOfTag t <;> simp

/-- Witness for C5: the origin tag yields zero places; the
just-outside-the-radius tag yields exactly one (non-empty, length at most
one). -/
theorem origin_placeholder_rejected_witness :
    (parseResponse (renderTag ⟨"Ghost", "0", "0", "Nowhere"⟩)).places = [] ∧
    (parseResponse (renderTag ⟨"Real", "0.0002", "0.0002", "Somewhere"⟩)).places ≠ [] ∧
    (parseResponse (renderTag ⟨"Real", "0.0002", "0.0002", "Somewhere"⟩)).places.length ≤ 1 := by
  refine ⟨(origin_placeholder_rejected ⟨"Ghost", "0", "0", "Nowhere"⟩
      (by decide)).1.mpr ?_, fun hc => ?_,
    (origin_placeholder_rejected ⟨"Real", "0.0002", "0.0002", "Somewhere"⟩
      (by decide)).2⟩
  · refine Or.inr (Or.inr ⟨?_, ?_⟩)
    · rw [tagLat_Ghost]; norm_num [JsNumber.toRat]
    · rw [tagLng_Ghost]; norm_num [JsNumber.toRat]
  · have h := (origin_placeholder_rejected ⟨"Real", "0.0002", "0.0002", "Somewhere"⟩
      (by decide)).1.mp hc
    rw [tagLat_Real, tagLng_Real] at h
    rcases h with h | h | h
    · simp [isValidCoordinate, JsNumber.isNaN, JsNumber.isFinite] at h
    · simp [isValidCoordinate, JsNumber.isNaN, JsNumber.isFinite] at h
    · have h1 := h.1
      simp only [JsNumber.toRat] at h1
      rw [abs_of_pos (by norm_num)] at h1
      norm_num at h1

/-- C8: the place list preserves the textual order of the accepted tags:
filler, tag A, filler, tag B, filler parses to `[A, B]`. -/
theorem places_preserve_text_order (s0 s1 s2 : String) (tA tB : Tag)
    (pA pB : Place)
    (h0 : '{' ∉ s0.toList) (h1 : '{' ∉ s1.toList) (h2 : '{' ∉ s2.toList)
    (hA : wellFormedTag tA) (hB : wellFormedTag tB)
    (hpA : mkPlaceOfTag tA = some pA) (hpB : mkPlaceOfTag tB = some pB) :
    (parseResponse (String.mk (renderChunksChars
      [.filler s0, .tag tA, .filler s1, .tag tB, .filler s2]))).places =
      [pA, pB] := by
  rw [parseResponse_chunks (by
    intro c hc
    simp only [List.mem_cons, List.not_mem_nil, or_false] at hc
    rcases hc with rfl | rfl | rfl | rfl | rfl
    · exact h0
    · exact hA
    · exact h1
    · exact hB
    · exact h2)]
  simp [chunkTags, List.filterMap_cons, hpA, hpB]

/-- Witness for C8 at the spec's own test input. -/
theorem places_preserve_text_order_witness :
    (parseResponse (String.mk (renderChunksChars
      [.filler "...", .tag ⟨"A", "1", "1", "x"⟩, .filler "...",
       .tag ⟨"B", "2", "2", "y"⟩, .filler "..."]))).places =
      [⟨"A", .num 1, .num 1, "x", "Located at x"⟩,
       ⟨"B", .num 2, .num 2, "y", "Located at y"⟩] := by
  exact places_preserve_text_order "..." "..." "..."
    ⟨"A", "1", "1", "x"⟩ ⟨"B", "2", "2", "y"⟩
    ⟨"A", .num 1, .num 1, "x", "Located at x"⟩
    ⟨"B", .num 2, .num 2, "y", "Located at y"⟩
    (by decide) (by decide) (by decide) (by decide) (by decide)
    mkPlaceOfTag_A mkPlaceOfTag_B

/-- C9: each accepted match builds its place from the whitespace-trimmed
fields, with the numeric fields comma-normalized before floating-point
parsing. -/
theorem fields_trimmed_and_comma_normalized (t : Tag) (p : Place)
    (ht : wellFormedTag t) (hp : mkPlaceOfTag t = some p) :
    (parseResponse (renderTag t)).places = [p] ∧
    p.lat = parseFloat (commaToDot (jsTrim t.latText)) ∧
    p.lng = parseFloat (commaToDot (jsTrim t.lngText)) ∧
    p.name = jsTrim t.name ∧ p.address = jsTrim t.address := by
  constructor
  · rw [parseResponse_tag ht, hp]
    exact rfl
  · unfold mkPlaceOfTag at hp
    split at hp
    · simp only [Option.some.injEq] at hp
      subst hp
      exact ⟨rfl, rfl, rfl, rfl⟩
    · exact absurd hp (by simp)

/-- Witness for C9 at the spec's locale-tolerance example
`\x7b\x7bDATA:C|40,71|-74,00|NY\x7d\x7d`, which parses to latitude
`40.71` and longitude `-74`. -/
theorem fields_trimmed_and_comma_normalized_witness :
    (parseResponse (renderTag ⟨"C", "40,71", "-74,00", "NY"⟩)).places =
      [⟨"C", .num (4071 / 100), .num (-74), "NY", "Located at NY"⟩] ∧
    (⟨"C", .num (4071 / 100), .num (-74), "NY", "Located at NY"⟩ : Place).lat =
      parseFloat (commaToDot (jsTrim "40,71")) ∧
    (⟨"C", .num (4071 / 100), .num (-74), "NY", "Located at NY"⟩ : Place).lng =
      parseFloat (commaToDot (jsTrim "-74,00")) ∧
    (⟨"C", .num (4071 / 100), .num (-74), "NY", "Located at NY"⟩ : Place).name =
      jsTrim "C" ∧
    (⟨"C", .num (4071 / 100), .num (-74), "NY", "Located at NY"⟩ : Place).address =
      jsTrim "NY" := by
  exact fields_trimmed_and_comma_normalized ⟨"C", "40,71", "-74,00", "NY"⟩
    ⟨"C", .num (4071 / 100), .num (-74), "NY", "Located at NY"⟩
    (by decide) mkPlaceOfTag_C

/-- Counterexample to C10 as stated: the origin tag has numeric fields
that parse to finite numbers (the protocol's validator accepts them), yet
the Extraction Protocol produces no `Place` for it, because of the
origin-placeholder rejection. -/
theorem finite_origin_tag_dropped_counterexample :
    isValidCoordinate (tagLat ⟨"Zero", "0", "0", "Null"⟩) = true ∧
    isValidCoordinate (tagLng ⟨"Zero", "0", "0", "Null"⟩) = true ∧
    (parseResponse (renderTag ⟨"Zero", "0", "0", "Null"⟩)).places = [] := by
  refine ⟨by rw [tagLat_Zero]; rfl, by rw [tagLng_Zero]; rfl, ?_⟩
  rw [parseResponse_tag (by decide)]
  have h : mkPlaceOfTag ⟨"Zero", "0", "0", "Null"⟩ = none := by
    rw [mkPlaceOfTag_eq_none_iff]
    refine Or.inr (Or.inr ⟨?_, ?_⟩)
    · rw [tagLat_Zero]; norm_num [JsNumber.toRat]
    · rw [tagLng_Zero]; norm_num [JsNumber.toRat]
  rw [h]
  rfl

/-- C10 (amended): neither validator imposes any geographic-range check —
a tag whose fields parse to finite numbers of any magnitude is accepted
provided it escapes the `0.0001`-degree origin-rejection radius, and the
map validator classifies every finite coordinate pair, however large, as
valid. -/
theorem coordinate_checks_range_free (t : Tag) (ht : wellFormedTag t)
    (q1 q2 : ℚ) (h1 : tagLat t = .num q1) (h2 : tagLng t = .num q2)
    (hmag : 1 / 10000 < |q1| ∨ 1 / 10000 < |q2|) :
    (parseResponse (renderTag t)).places =
      [⟨jsTrim t.name, .num q1, .num q2, jsTrim t.address,
        "Located at " ++ jsTrim t.address⟩] ∧
    (∀ a b : ℚ, isValidCoord (.num a) (.num b) = true) ∧
    (∀ a : ℚ, isValidCoordinate (.num a) = true) := by
  have hacc : acceptTag t = true := by
    unfold acceptTag
    rw [h1, h2]
    simp only [isValidCoordinate, JsNumber.isNaN, JsNumber.isFinite,
      JsNumber.toRat, Bool.not_false, Bool.and_eq_true, Bool.or_eq_true,
      decide_eq_true_eq, Bool.true_and, true_and]
    exact hmag
  have hp : mkPlaceOfTag t =
      some ⟨jsTrim t.name, .num q1, .num q2, jsTrim t.address,
        "Located at " ++ jsTrim t.address⟩ := by
    unfold mkPlaceOfTag
    rw [if_pos hacc, h1, h2]
  refine ⟨?_, fun a b => rfl, fun a => rfl⟩
  rw [parseResponse_tag ht, hp]
  rfl

/-- Witness for the amended C10 at latitude `1000`, longitude `999` —
far outside any geographic range, still accepted. -/
theorem coordinate_checks_range_free_witness :
    (parseResponse (renderTag ⟨"Far", "1000", "999", "Out"⟩)).places =
      [⟨jsTrim "Far", .num 1000, .num 999, jsTrim "Out",
        "Located at " ++ jsTrim "Out"⟩] ∧
    (∀ a b : ℚ, isValidCoord (.num a) (.num b) = true) ∧
    (∀ a : ℚ, isValidCoordinate (.num a) = true) := by
  exact coordinate_checks_range_free ⟨"Far", "1000", "999", "Out"⟩ (by decide)
    1000 999 tagLat_Far tagLng_Far
    (Or.inl (by rw [abs_of_pos (by norm_num : (0 : ℚ) < 1000)]; norm_num))

theorem mapUpdaterCenter_ne_fitRoute (p : UpdaterProps) (m : MapState)
    (r : UpdaterRefs) (coords : List RatCoord) :
    (mapUpdaterCenter p m r).1 ≠ some (.fitRoute coords) := by
  unfold mapUpdaterCenter
  split
  · simp
  · dsimp only
    split
    · simp
    · simp

theorem mapUpdaterRest_ne_fitRoute (p : UpdaterProps) (m : MapState)
    (r : UpdaterRefs) (coords : List RatCoord) :
    (mapUpdaterRest p m r).1 ≠ some (.fitRoute coords) := by
  unfold mapUpdaterRest
  split
  · split
    · split <;> simp
    · exact mapUpdaterCenter_ne_fitRoute p m r coords
  · exact mapUpdaterCenter_ne_fitRoute p m r coords

/-- C1 (amended): with a non-empty route present, the route-bounding-box
fit is issued iff the follow-user flag is off — the suppression is keyed
on `isFollowingUser` alone, not on the Following-or-Navigating mode; when
the flag is on, the camera instruction is the follow-derived one (given a
valid user position beyond the threshold). -/
theorem fitRoute_suppressed_iff_following (p : UpdaterProps) (m : MapState)
    (r : UpdaterRefs) (rd : RouteData) (hrd : p.routeData = some rd)
    (hne : rd.coordinates ≠ []) :
    ((mapUpdater p m r).1 = some (.fitRoute rd.coordinates) ↔
      p.isFollowingUser = false) ∧
    (∀ u, p.isFollowingUser = true → p.userLocation = some u →
      isValidCoord u.lat u.lng = true →
      distSq m.center u.toRatCoord > 1 / 100000000 →
      (mapUpdater p m r).1 = some (.followView u.toRatCoord m.zoom)) := by
  have hlen : 0 < rd.coordinates.length := List.length_pos.mpr hne
  cases hf : p.isFollowingUser with
  | false =>
    have hfit : (mapUpdater p m r).1 = some (.fitRoute rd.coordinates) := by
      unfold mapUpdater
      simp [hrd, hf, hlen]
    exact ⟨by simp [hfit], fun u hu => absurd hu (by decide)⟩
  | true =>
    have hrest : mapUpdater p m r = mapUpdaterRest p m r := by
      unfold mapUpdater
      simp [hrd, hf]
    refine ⟨?_, ?_⟩
    · rw [hrest]
      constructor
      · intro hcontra
        exact absurd hcontra (mapUpdaterRest_ne_fitRoute p m r rd.coordinates)
      · intro hcontra; cases hcontra
    · intro u _ hu hv hdist
      rw [hrest]
      unfold mapUpdaterRest
      simp only [hu, hf, hv, Bool.or_true, Bool.and_self, if_pos]
      rw [if_pos (by simpa using hdist)]

/-- Counterexample to C1 as stated: a viewport state in persistent mode
`Navigating` (trip started, follow flag cleared by an earlier drag)
together with a non-empty `FitRoute` directive produces the
route-bounding-box instruction — the fit is *not* suppressed. -/
theorem fitRoute_navigating_counterexample :
    modeOf ⟨true, false⟩ = Mode.navigating ∧
    (mapUpdater (mkProps ⟨true, false⟩ ⟨.num 10, .num 10⟩ (some 13)
        (some ⟨.num 1, .num 1⟩) (some ⟨[⟨0, 0⟩, ⟨2, 2⟩], 1000, 60⟩))
      ⟨⟨5, 5⟩, 13⟩ ⟨none, none⟩).1 = some (.fitRoute [⟨0, 0⟩, ⟨2, 2⟩]) := by
  exact ⟨rfl, rfl⟩

/-- Witness for the amended C1: follow flag off honors the fit; follow
flag on suppresses it in favor of the user glide. -/
theorem fitRoute_suppressed_iff_following_witness :
    (mapUpdater (mkProps ⟨false, false⟩ ⟨.num 10, .num 10⟩ (some 13)
        none (some ⟨[⟨7, 7⟩, ⟨8, 8⟩], 500, 30⟩)) ⟨⟨0, 0⟩, 13⟩ ⟨none, none⟩).1 =
      some (.fitRoute [⟨7, 7⟩, ⟨8, 8⟩]) ∧
    (mapUpdater (mkProps ⟨false, true⟩ ⟨.num 10, .num 10⟩ (some 13)
        (some ⟨.num 9, .num 9⟩) (some ⟨[⟨7, 7⟩, ⟨8, 8⟩], 500, 30⟩))
      ⟨⟨0, 0⟩, 13⟩ ⟨none, none⟩).1 =
      some (.followView (JsCoord.toRatCoord ⟨.num 9, .num 9⟩) 13) := by
  constructor
  · exact (fitRoute_suppressed_iff_following _ ⟨⟨0, 0⟩, 13⟩ ⟨none, none⟩
      ⟨[⟨7, 7⟩, ⟨8, 8⟩], 500, 30⟩ rfl (by simp)).1.mpr rfl
  · exact (fitRoute_suppressed_iff_following _ ⟨⟨0, 0⟩, 13⟩ ⟨none, none⟩
      ⟨[⟨7, 7⟩, ⟨8, 8⟩], 500, 30⟩ rfl (by simp)).2 ⟨.num 9, .num 9⟩ rfl rfl rfl
      (by norm_num [distSq, JsCoord.toRatCoord, JsNumber.toRat])

/-- C2 (amended): `handleMapDrag` clears the follow flag and nothing
else.  From a prior mode of `Idle` or `Following` (trip not active) the
mode becomes `Idle` and an immediately following GPS update issues no
camera instruction (given in-sync refs and no route); from a prior mode of
`Navigating` the mode remains `Navigating`. -/
theorem user_drag_clears_follow (f : FollowFlags) (m : MapState)
    (r : UpdaterRefs) (center : JsCoord) (zoom : Option ℚ) (u : JsCoord) :
    (handleMapDrag f).isFollowingUser = false ∧
    (f.isNavigating = false → modeOf (handleMapDrag f) = Mode.idle) ∧
    (f.isNavigating = false →
      r.lastAppliedCenter = some center.toRatCoord →
      r.lastAppliedZoom = some (targetZoomOf
        (mkProps (handleMapDrag f) center zoom (some u) none) m) →
      (mapUpdater (mkProps (handleMapDrag f) center zoom (some u) none) m r).1 =
        none) ∧
    (f.isNavigating = true → modeOf (handleMapDrag f) = Mode.navigating) := by
  have hflag : (handleMapDrag f).isFollowingUser = false ∧
      (handleMapDrag f).isNavigating = f.isNavigating := by
    unfold handleMapDrag
    cases hf : f.isFollowingUser <;> simp [hf]
  refine ⟨hflag.1, fun hnav => ?_, fun hnav hc hz => ?_, fun hnav => ?_⟩
  · simp [modeOf, hflag.1, hflag.2, hnav]
  · have hcenter : mapUpdater (mkProps (handleMapDrag f) center zoom (some u) none) m r =
        mapUpdaterCenter (mkProps (handleMapDrag f) center zoom (some u) none) m r := by
      unfold mapUpdater mapUpdaterRest
      simp [mkProps, hflag.1, hflag.2, hnav]
    rw [hcenter]
    unfold mapUpdaterCenter
    cases hv : isValidCoord (mkProps (handleMapDrag f) center zoom (some u) none).center.lat
        (mkProps (handleMapDrag f) center zoom (some u) none).center.lng with
    | false => simp [hv]
    | true =>
      simp only [hv, Bool.not_true, Bool.false_eq_true, if_false]
      rw [show (mkProps (handleMapDrag f) center zoom (some u) none).center = center from rfl]
      rw [hc, hz]
      simp [sub_self, abs_zero]
      norm_num
  · simp [modeOf, hflag.2, hnav]

/-- Counterexample to C2 as stated: from prior mode `Navigating`, a
`UserDragged` directive leaves the mode `Navigating` (not `Idle`), and the
GPS update arriving immediately afterwards still recenters the camera on
the new position. -/
theorem drag_during_navigation_counterexample :
    modeOf (handleMapDrag ⟨true, true⟩) = Mode.navigating ∧
    (mapUpdater (mkProps (handleMapDrag ⟨true, true⟩) ⟨.num 0, .num 0⟩ (some 13)
        (some ⟨.num 1, .num 1⟩) none) ⟨⟨0, 0⟩, 13⟩ ⟨some ⟨0, 0⟩, some 13⟩).1 =
      some (.followView (JsCoord.toRatCoord ⟨.num 1, .num 1⟩) 13) := by
  constructor
  · rfl
  · norm_num [mapUpdater, mapUpdaterRest, mapUpdaterCenter, mkProps,
      handleMapDrag, distSq, isValidCoord, JsNumber.isNaN, JsNumber.isFinite,
      JsCoord.toRatCoord, JsNumber.toRat]

/-- Witness for the amended C2 from prior mode `Following`: the drag
yields mode `Idle` and the subsequent GPS update (50, 60), far from the
center, produces no camera instruction. -/
theorem user_drag_clears_follow_witness :
    (handleMapDrag ⟨false, true⟩).isFollowingUser = false ∧
    modeOf (handleMapDrag ⟨false, true⟩) = Mode.idle ∧
    (mapUpdater (mkProps (handleMapDrag ⟨false, true⟩) ⟨.num 2, .num 3⟩ (some 13)
        (some ⟨.num 50, .num 60⟩) none) ⟨⟨2, 3⟩, 13⟩ ⟨some ⟨2, 3⟩, some 13⟩).1 =
      none := by
  have h := user_drag_clears_follow ⟨false, true⟩ ⟨⟨2, 3⟩, 13⟩
    ⟨some ⟨2, 3⟩, some 13⟩ ⟨.num 2, .num 3⟩ (some 13) ⟨.num 50, .num 60⟩
  exact ⟨h.1, h.2.1 rfl, h.2.2.1 rfl rfl (by norm_num [targetZoomOf, mkProps])⟩

/-- Counterexample to C3 as stated: in persistent mode `Navigating` with
the follow flag cleared and a route pending, a GPS update whose
displacement far exceeds `0.0001` degrees does *not* recenter the camera —
the route fit intercepts it. -/
theorem gps_threshold_intercepted_counterexample :
    modeOf ⟨true, false⟩ = Mode.navigating ∧
    distSq (⟨0, 0⟩ : RatCoord) (JsCoord.toRatCoord ⟨.num 1, .num 1⟩) >
      1 / 100000000 ∧
    (mapUpdater (mkProps ⟨true, false⟩ ⟨.num 0, .num 0⟩ (some 13)
        (some ⟨.num 1, .num 1⟩) (some ⟨[⟨3, 3⟩, ⟨4, 4⟩], 1, 1⟩))
      ⟨⟨0, 0⟩, 13⟩ ⟨none, none⟩).1 = some (.fitRoute [⟨3, 3⟩, ⟨4, 4⟩]) := by
  refine ⟨rfl, ?_, rfl⟩
  norm_num [distSq, JsCoord.toRatCoord, JsNumber.toRat]

/-- C3 (amended): while the GPS-follow condition holds and no route fit
intercepts (no route data, or the follow flag set), a GPS update recenters
the camera on the new position iff its displacement from the current
center exceeds `0.0001` degrees: of two successive updates, the first
(beyond the threshold) is applied and the second (within the threshold of
the first) is a no-op. -/
theorem gps_threshold_recentering (f : FollowFlags) (m : MapState)
    (r : UpdaterRefs) (center : JsCoord) (zoom : Option ℚ) (u1 u2 : JsCoord)
    (rd : Option RouteData)
    (hmode : f.isNavigating = true ∨ f.isFollowingUser = true)
    (hroute : rd = none ∨ f.isFollowingUser = true)
    (hv1 : isValidCoord u1.lat u1.lng = true)
    (hv2 : isValidCoord u2.lat u2.lng = true)
    (hfar : distSq m.center u1.toRatCoord > 1 / 100000000)
    (hnear : distSq u1.toRatCoord u2.toRatCoord ≤ 1 / 100000000) :
    (stepUpdater (mkProps f center zoom (some u1) rd) m r).1 =
      some (.followView u1.toRatCoord m.zoom) ∧
    (stepUpdater (mkProps f center zoom (some u2) rd)
      (stepUpdater (mkProps f center zoom (some u1) rd) m r).2.1
      (stepUpdater (mkProps f center zoom (some u1) rd) m r).2.2).1 = none := by
  have hcond : (f.isNavigating || f.isFollowingUser) = true := by
    rcases hmode with h | h <;> simp [h]
  have hfollow : ∀ (mm : MapState) (rr : UpdaterRefs) (u : JsCoord),
      isValidCoord u.lat u.lng = true →
      mapUpdater (mkProps f center zoom (some u) rd) mm rr =
        if distSq mm.center u.toRatCoord > 1 / 100000000 then
          (some (.followView u.toRatCoord mm.zoom), rr)
        else (none, rr) := by
    intro mm rr u hv
    have hrest : mapUpdater (mkProps f center zoom (some u) rd) mm rr =
        mapUpdaterRest (mkProps f center zoom (some u) rd) mm rr := by
      unfold mapUpdater
      rcases hroute with h | h
      · simp [mkProps, h]
      · cases hrd : rd with
        | none => simp [mkProps, hrd]
        | some rdv => simp [mkProps, hrd, h]
    rw [hrest]
    unfold mapUpdaterRest
    simp only [mkProps, hcond, hv, Bool.and_self, if_pos]
  have h1 : mapUpdater (mkProps f center zoom (some u1) rd) m r =
      (some (.followView u1.toRatCoord m.zoom), r) := by
    rw [hfollow m r u1 hv1, if_pos hfar]
  have hs1 : stepUpdater (mkProps f center zoom (some u1) rd) m r =
      (some (.followView u1.toRatCoord m.zoom), ⟨u1.toRatCoord, m.zoom⟩, r) := by
    unfold stepUpdater
    rw [h1]
    rfl
  refine ⟨by rw [hs1], ?_⟩
  rw [hs1]
  show (stepUpdater (mkProps f center zoom (some u2) rd) ⟨u1.toRatCoord, m.zoom⟩ r).1 = none
  unfold stepUpdater
  rw [hfollow ⟨u1.toRatCoord, m.zoom⟩ r u2 hv2]
  rw [if_neg (by simpa using not_lt.mpr hnear)]

/-- Witness for the amended C3: while `Following`, a first GPS update at
(10, 10) is applied; a second update `0.000018` degrees (≈ 2 meters) away
is a no-op. -/
theorem gps_threshold_recentering_witness :
    (stepUpdater (mkProps ⟨false, true⟩ ⟨.num 0, .num 0⟩ (some 16)
        (some ⟨.num 10, .num 10⟩) none) ⟨⟨0, 0⟩, 16⟩ ⟨none, none⟩).1 =
      some (.followView (JsCoord.toRatCoord ⟨.num 10, .num 10⟩) 16) ∧
    (stepUpdater (mkProps ⟨false, true⟩ ⟨.num 0, .num 0⟩ (some 16)
        (some ⟨.num (10 + 18 / 1000000), .num 10⟩) none)
      (stepUpdater (mkProps ⟨false, true⟩ ⟨.num 0, .num 0⟩ (some 16)
        (some ⟨.num 10, .num 10⟩) none) ⟨⟨0, 0⟩, 16⟩ ⟨none, none⟩).2.1
      (stepUpdater (mkProps ⟨false, true⟩ ⟨.num 0, .num 0⟩ (some 16)
        (some ⟨.num 10, .num 10⟩) none) ⟨⟨0, 0⟩, 16⟩ ⟨none, none⟩).2.2).1 =
      none := by
  exact gps_threshold_recentering ⟨false, true⟩ ⟨⟨0, 0⟩, 16⟩ ⟨none, none⟩
    ⟨.num 0, .num 0⟩ (some 16) ⟨.num 10, .num 10⟩
    ⟨.num (10 + 18 / 1000000), .num 10⟩ none
    (Or.inr rfl) (Or.inl rfl) rfl rfl
    (by norm_num [distSq, JsCoord.toRatCoord, JsNumber.toRat])
    (by norm_num [distSq, JsCoord.toRatCoord, JsNumber.toRat])

/-- C6: an `ExplicitCenter` directive is applied only when the center
differs from the last-applied center by more than `1e-6` degrees in
latitude or longitude or the zoom differs from the last-applied zoom, and
re-running the same directive immediately afterwards issues no second
instruction: a fresh directive produces exactly one camera instruction. -/
theorem explicit_center_applied_once (p : UpdaterProps) (m : MapState)
    (r : UpdaterRefs) (z : ℚ)
    (hnav : p.isNavigating = false) (hfol : p.isFollowingUser = false)
    (hrd : p.routeData = none) (hz : p.zoom = some z) (hz0 : z ≠ 0)
    (hval : isValidCoord p.center.lat p.center.lng = true) :
    (∀ lc, r.lastAppliedCenter = some lc →
      |lc.lat - p.center.toRatCoord.lat| ≤ 1 / 1000000 →
      |lc.lng - p.center.toRatCoord.lng| ≤ 1 / 1000000 →
      r.lastAppliedZoom = some z →
      (mapUpdater p m r).1 = none) ∧
    (stepUpdater p (stepUpdater p m r).2.1 (stepUpdater p m r).2.2).1 = none ∧
    (r.lastAppliedCenter = none → ((mapUpdater p m r).1).isSome = true) := by
  have hcen : ∀ (mm : MapState) (rr : UpdaterRefs),
      mapUpdater p mm rr = mapUpdaterCenter p mm rr := by
    intro mm rr
    unfold mapUpdater
    simp only [hrd]
    unfold mapUpdaterRest
    cases hu : p.userLocation with
    | none => rfl
    | some u => simp [hnav, hfol]
  have htz : ∀ mm : MapState, targetZoomOf p mm = z := by
    intro mm
    simp [targetZoomOf, hz, hz0]
  have key : ∀ (mm : MapState) (rr : UpdaterRefs),
      mapUpdater p mm rr = (none, rr) ∨
      mapUpdater p mm rr = (some (.centerView p.center.toRatCoord z),
        ⟨some p.center.toRatCoord, some z⟩) := by
    intro mm rr
    rw [hcen mm rr]
    unfold mapUpdaterCenter
    simp only [hval, Bool.not_true, Bool.false_eq_true, if_false]
    rw [htz mm]
    split
    · right; rfl
    · left; rfl
  have hafter : (mapUpdater p ⟨p.center.toRatCoord, z⟩
      ⟨some p.center.toRatCoord, some z⟩).1 = none := by
    rw [hcen]
    unfold mapUpdaterCenter
    simp only [hval, Bool.not_true, Bool.false_eq_true, if_false]
    rw [htz]
    rw [if_neg ?hcond]
    case hcond =>
      simp only [ne_eq, Bool.or_eq_true, decide_eq_true_eq]
      push_neg
      refine ⟨⟨?_, ?_⟩, trivial⟩ <;>
        · rw [sub_self, abs_zero]
          norm_num
  refine ⟨fun lc hlc h1 h2 hlz => ?_, ?_, fun hnone => ?_⟩
  · rw [hcen m r]
    unfold mapUpdaterCenter
    simp only [hval, Bool.not_true, Bool.false_eq_true, if_false]
    rw [htz m, hlc, hlz]
    rw [if_neg ?hcond2]
    case hcond2 =>
      simp only [ne_eq, Bool.or_eq_true, decide_eq_true_eq]
      push_neg
      exact ⟨⟨h1, h2⟩, trivial⟩
  · rcases key m r with hkey | hkey
    · have hstep : stepUpdater p m r = (none, m, r) := by
        unfold stepUpdater
        rw [hkey]
        rfl
      rw [hstep]
      show (stepUpdater p m r).1 = none
      unfold stepUpdater
      rw [hkey]
    · have hstep : stepUpdater p m r =
          (some (.centerView p.center.toRatCoord z),
           ⟨p.center.toRatCoord, z⟩, ⟨some p.center.toRatCoord, some z⟩) := by
        unfold stepUpdater
        rw [hkey]
        rfl
      rw [hstep]
      show (stepUpdater p ⟨p.center.toRatCoord, z⟩
        ⟨some p.center.toRatCoord, some z⟩).1 = none
      unfold stepUpdater
      rcases key ⟨p.center.toRatCoord, z⟩ ⟨some p.center.toRatCoord, some z⟩ with
        hk2 | hk2
      · rw [hk2]
      · rw [hk2] at hafter ⊢
        exact absurd hafter (by simp)
  · rw [hcen m r]
    unfold mapUpdaterCenter
    simp only [hval, Bool.not_true, Bool.false_eq_true, if_false]
    rw [htz m, hnone]
    simp

/-- Witness for C6: an explicit center (40, 50) at zoom 14 over fresh
refs fires once; its immediate re-application is a no-op. -/
theorem explicit_center_applied_once_witness :
    (stepUpdater (mkProps ⟨false, false⟩ ⟨.num 40, .num 50⟩ (some 14) none none)
      (stepUpdater (mkProps ⟨false, false⟩ ⟨.num 40, .num 50⟩ (some 14) none none)
        ⟨⟨0, 0⟩, 2⟩ ⟨none, none⟩).2.1
      (stepUpdater (mkProps ⟨false, false⟩ ⟨.num 40, .num 50⟩ (some 14) none none)
        ⟨⟨0, 0⟩, 2⟩ ⟨none, none⟩).2.2).1 = none ∧
    ((mapUpdater (mkProps ⟨false, false⟩ ⟨.num 40, .num 50⟩ (some 14) none none)
      ⟨⟨0, 0⟩, 2⟩ ⟨none, none⟩).1).isSome = true := by
  have h := explicit_center_applied_once
    (mkProps ⟨false, false⟩ ⟨.num 40, .num 50⟩ (some 14) none none)
    ⟨⟨0, 0⟩, 2⟩ ⟨none, none⟩ 14 rfl rfl rfl rfl (by norm_num) rfl
  exact ⟨h.2.1, h.2.2 rfl⟩

/-- C7: a directive bearing non-finite or `NaN` coordinates is a no-op —
an invalid explicit center changes nothing, an invalid GPS position causes
no motion and retains the refs, and a `FitBounds` request whose points
contain no valid coordinate is silently dropped while one valid point
suffices to fit; every case returns a value rather than throwing. -/
theorem invalid_coordinates_are_noop (p : UpdaterProps) (m : MapState)
    (r : UpdaterRefs) (places : List Place) :
    (p.routeData = none → p.userLocation = none →
      isValidCoord p.center.lat p.center.lng = false →
      mapUpdater p m r = (none, r)) ∧
    (∀ u z, p.routeData = none → p.userLocation = some u →
      isValidCoord u.lat u.lng = false →
      isValidCoord p.center.lat p.center.lng = true →
      p.zoom = some z → z ≠ 0 →
      r.lastAppliedCenter = some p.center.toRatCoord →
      r.lastAppliedZoom = some z →
      mapUpdater p m r = (none, r)) ∧
    ((∀ pl ∈ places, isValidCoord pl.lat pl.lng = false) →
      fitBoundsControl places = none) ∧
    ((∃ pl ∈ places, isValidCoord pl.lat pl.lng = true) →
      fitBoundsControl places = some (.fitAll
        ((places.filter fun pl => isValidCoord pl.lat pl.lng).map
          fun pl => RatCoord.mk pl.lat.toRat pl.lng.toRat))) := by
  refine ⟨fun hrd hu hic => ?_, fun u z hrd hu hiu hic hz hz0 hlc hlz => ?_,
    fun hall => ?_, fun hex => ?_⟩
  · unfold mapUpdater
    simp only [hrd]
    unfold mapUpdaterRest
    simp only [hu]
    unfold mapUpdaterCenter
    simp [hic]
  · unfold mapUpdater
    simp only [hrd]
    unfold mapUpdaterRest
    simp only [hu, hiu, Bool.and_false, Bool.false_eq_true, if_false]
    unfold mapUpdaterCenter
    simp only [hic, Bool.not_true, Bool.false_eq_true, if_false]
    rw [hlc, hlz]
    have htz : targetZoomOf p m = z := by simp [targetZoomOf, hz, hz0]
    rw [htz]
    rw [if_neg ?hcond3]
    case hcond3 =>
      simp only [ne_eq, Bool.or_eq_true, decide_eq_true_eq]
      push_neg
      refine ⟨⟨?_, ?_⟩, trivial⟩ <;>
        · rw [sub_self, abs_zero]
          norm_num
  · unfold fitBoundsControl
    have : places.filter (fun pl => isValidCoord pl.lat pl.lng) = [] := by
      rw [List.filter_eq_nil_iff]
      intro pl hpl
      simp [hall pl hpl]
    simp [this]
  · unfold fitBoundsControl
    obtain ⟨pl, hmem, hval⟩ := hex
    have hne : places.filter (fun pl => isValidCoord pl.lat pl.lng) ≠ [] :=
      List.ne_nil_of_mem (List.mem_filter.mpr ⟨hmem, hval⟩)
    rw [if_neg (by simpa using fun hc => hne (List.length_eq_zero.mp hc))]

/-- Witness for C7 with a `NaN` center, an `Infinity` GPS position, and
fit requests over an all-invalid and a partly-valid place list. -/
theorem invalid_coordinates_are_noop_witness :
    mapUpdater (mkProps ⟨false, false⟩ ⟨.nan, .num 1⟩ (some 13) none none)
      ⟨⟨0, 0⟩, 13⟩ ⟨none, none⟩ = (none, ⟨none, none⟩) ∧
    mapUpdater (mkProps ⟨false, true⟩ ⟨.num 1, .num 2⟩ (some 13)
        (some ⟨.inf, .num 3⟩) none) ⟨⟨0, 0⟩, 13⟩
      ⟨some ⟨1, 2⟩, some 13⟩ = (none, ⟨some ⟨1, 2⟩, some 13⟩) ∧
    fitBoundsControl [(⟨"X", .nan, .num 2, "a", "d"⟩ : Place)] = none ∧
    fitBoundsControl [(⟨"X", .nan, .num 2, "a", "d"⟩ : Place),
        ⟨"Y", .num 1, .num 2, "b", "e"⟩] =
      some (.fitAll ((([(⟨"X", .nan, .num 2, "a", "d"⟩ : Place),
        ⟨"Y", .num 1, .num 2, "b", "e"⟩] : List Place).filter
          (fun pl => isValidCoord pl.lat pl.lng)).map
        (fun pl => RatCoord.mk pl.lat.toRat pl.lng.toRat))) := by
  refine ⟨?_, ?_, ?_, ?_⟩
  · exact (invalid_coordinates_are_noop
      (mkProps ⟨false, false⟩ ⟨.nan, .num 1⟩ (some 13) none none)
      ⟨⟨0, 0⟩, 13⟩ ⟨none, none⟩ []).1 rfl rfl rfl
  · exact (invalid_coordinates_are_noop
      (mkProps ⟨false, true⟩ ⟨.num 1, .num 2⟩ (some 13) (some ⟨.inf, .num 3⟩) none)
      ⟨⟨0, 0⟩, 13⟩ ⟨some ⟨1, 2⟩, some 13⟩ []).2.1 ⟨.inf, .num 3⟩ 13
      rfl rfl rfl rfl rfl (by norm_num) rfl rfl
  · exact (invalid_coordinates_are_noop
      (mkProps ⟨false, false⟩ ⟨.num 0, .num 0⟩ none none none) ⟨⟨0, 0⟩, 13⟩
      ⟨none, none⟩ [(⟨"X", .nan, .num 2, "a", "d"⟩ : Place)]).2.2.1 (by decide)
  · exact (invalid_coordinates_are_noop
      (mkProps ⟨false, false⟩ ⟨.num 0, .num 0⟩ none none none) ⟨⟨0, 0⟩, 13⟩
      ⟨none, none⟩ [(⟨"X", .nan, .num 2, "a", "d"⟩ : Place),
        ⟨"Y", .num 1, .num 2, "b", "e"⟩]).2.2.2
      ⟨⟨"Y", .num 1, .num 2, "b", "e"⟩, by decide, rfl⟩
